import Mathlib

/-!
# Shallow embedding of `should_i_open_my_window` (src/src/main.rs)

The program turns an hourly weather forecast (temperature in °C, relative
humidity in percent) into two tables telling the user what indoor relative
humidity would result from opening the window, for 13 candidate indoor
temperatures.

Modelling choices:
* `f64` arithmetic of the psychrometric projection is modelled over `ℝ`;
  the exact (finite) sample values carried by the data pipeline are
  modelled over `ℚ` so that the aggregation/windowing layer stays
  executable.
* chrono `NaiveDateTime` values are modelled as seconds since the epoch
  (`ℕ`); `duration_trunc(TimeDelta::hours(1))` on a post-epoch instant is
  flooring to the hour, `NaiveDateTime::date` is flooring to the day.
* String formatting (`datetime_repr`, `rh_cell`'s `"{rh:.1}%"`) is
  presentation; the model keeps the underlying numeric value that the
  source formats.
-/

/-- `TEMP_RANGE` from main.rs line 10: the 13 candidate indoor
temperatures 16.0, 16.5, …, 22.0 °C. -/
noncomputable def TEMP_RANGE : List ℝ :=
  [16, 16.5, 17, 17.5, 18, 18.5, 19, 19.5, 20, 20.5, 21, 21.5, 22]

/-- `celsius_to_kelvin` from main.rs line 180. -/
noncomputable def celsius_to_kelvin (celsius : ℝ) : ℝ := celsius + 273.15

/-- Modelled from the spec: `rust_steam::p_sat` (an external crate, not in
this repository) — the saturation vapor pressure of water as a function of
absolute temperature in Kelvin.  Spec §4.1 allows "any physically
consistent vapor-pressure correlation … such as a Clausius–Clapeyron-derived
correlation"; we use the Clausius–Clapeyron form
`p_sat T = p_boil · exp (L/R · (1/T_boil − 1/T))`, anchored at the normal
boiling point (101325 Pa at 373.15 K) with `L/R = 5300 K`. -/
noncomputable def p_sat (t : ℝ) : ℝ :=
  101325 * Real.exp (5300 * (1 / 373.15 - 1 / t))

/-- `celsius_sat_pres` from main.rs line 176. -/
noncomputable def celsius_sat_pres (celsius : ℝ) : ℝ :=
  p_sat (celsius_to_kelvin celsius)

/-- `sat_press` from main.rs line 139: saturation pressure at each
reference temperature, in the order of `TEMP_RANGE`. -/
noncomputable def sat_press : List ℝ := TEMP_RANGE.map celsius_sat_pres

/-- One projected relative-humidity cell, from main.rs lines 156–159:
`forecast_vapor_pressure = relative_humidity * celsius_sat_pres(temperature)`
and `rh = forecast_vapor_pressure / sat_pres`. -/
noncomputable def rhProj (temperature relative_humidity t_ref : ℝ) : ℝ :=
  relative_humidity * celsius_sat_pres temperature / celsius_sat_pres t_ref

/-- The projected row emitted for one forecast item (main.rs lines
156–161): one cell per entry of `sat_press`, in order. -/
noncomputable def projRow (temperature relative_humidity : ℝ) : List ℝ :=
  sat_press.map (fun sp => relative_humidity * celsius_sat_pres temperature / sp)

/-- The projection as the spec words it (§4.2): vapor pressure
`(RH/100) · p_sat(T_obs)`, projected cell `100 · vapor / p_sat(T_ref)`,
one per reference temperature in order.  Used only to compare with
`projRow`, which is taken from the source. -/
noncomputable def project_spec (temperature relative_humidity : ℝ) : List ℝ :=
  TEMP_RANGE.map (fun t_ref =>
    100 * ((relative_humidity / 100) * celsius_sat_pres temperature) /
      celsius_sat_pres t_ref)

/-- One hourly forecast sample, modelling
`open_meteo_rs::forecast::ForecastResultHourly` as consumed by the core:
`datetime` in seconds since the epoch (civil time), the two requested
hourly values as exact rationals. -/
structure ForecastResultHourly where
  datetime : ℕ
  temperature_2m : ℚ
  relative_humidity_2m : ℚ
deriving DecidableEq, Repr

/-- `extract_temp_rh` from main.rs line 72. -/
def extract_temp_rh (item : ForecastResultHourly) : ℚ × ℚ :=
  (item.temperature_2m, item.relative_humidity_2m)

/-- `ForeCastItem` from main.rs line 115.  `datetime_repr` holds the
numeric value that the source formats into the label string (the sample's
datetime for hourly rows, the calendar-day number for daily rows). -/
structure ForeCastItem where
  datetime_repr : ℕ
  temperature : ℚ
  relative_humidity : ℚ
deriving DecidableEq, Repr

/-- `ForeCastItem::from_api` from main.rs line 122. -/
def ForeCastItem.from_api (api_item : ForecastResultHourly) : ForeCastItem :=
  { datetime_repr := api_item.datetime
    temperature := (extract_temp_rh api_item).1
    relative_humidity := (extract_temp_rh api_item).2 }

/-- `duration_trunc(TimeDelta::hours(1))` on a post-epoch instant (main.rs
line 45): floor to the start of the hour. -/
def truncHour (t : ℕ) : ℕ := t / 3600 * 3600

/-- `NaiveDateTime::date()` applied to a sample (main.rs line 63): the
calendar-day number of its instant. -/
def naiveDate (s : ForecastResultHourly) : ℕ := s.datetime / 86400

/-- The precondition the program relies on: the forecast samples arrive in
strictly increasing chronological order. -/
def chronological (l : List ForecastResultHourly) : Prop :=
  l.Pairwise (fun a b => a.datetime < b.datetime)

instance : DecidablePred chronological := fun l =>
  inferInstanceAs (Decidable (l.Pairwise _))

/-- The hourly display pipeline from main.rs lines 48–54:
`skip_while(datetime < this_day_and_hour).map(from_api).take(10)`. -/
def hourlyDisplay (samples : List ForecastResultHourly) (now : ℕ) :
    List ForeCastItem :=
  (((samples.dropWhile (fun s => s.datetime < truncHour now)).map
    ForeCastItem.from_api)).take 10

/-- The source's hourly windowing with the literal count 10 generalized to
the spec's `count` parameter (SeriesWindower contract, §4.3): skip-while
past the truncated reference instant, then take at most `count`. -/
def windowCount (samples : List ForecastResultHourly) (now count : ℕ) :
    List ForecastResultHourly :=
  (samples.dropWhile (fun s => s.datetime < truncHour now)).take count

/-- `chunk_by(|item| item.datetime.date())` from main.rs line 63: maximal
runs of consecutive samples sharing a calendar date, each keyed (as in
itertools) by the date of its first element. -/
def chunkByDate : List ForecastResultHourly →
    List (ℕ × List ForecastResultHourly)
  | [] => []
  | x :: xs =>
    match chunkByDate xs with
    | [] => [(naiveDate x, [x])]
    | (d, g) :: rest =>
      if naiveDate x = d then (d, x :: g) :: rest
      else (naiveDate x, [x]) :: (d, g) :: rest

/-- One iteration of the `average_daily` loop (main.rs lines 86–91):
bump the running count and add the sample's temperature and humidity to
the running sums. -/
def daily_step (acc : ℚ × ℚ × ℚ) (item : ForecastResultHourly) : ℚ × ℚ × ℚ :=
  (acc.1 + 1, acc.2.1 + (extract_temp_rh item).1,
    acc.2.2 + (extract_temp_rh item).2)

/-- The accumulation loop of `average_daily` (main.rs lines 83–91):
running `(count, temperature, relative_humidity)` sums. -/
def daily_fold (forcast : List ForecastResultHourly) : ℚ × ℚ × ℚ :=
  forcast.foldl daily_step (0, 0, 0)

/-- `average_daily` from main.rs line 79: sum the group's temperatures and
humidities with a running count, then divide by the count. -/
def average_daily (date : ℕ) (forcast : List ForecastResultHourly) :
    ForeCastItem :=
  { datetime_repr := date
    temperature := (daily_fold forcast).2.1 / (daily_fold forcast).1
    relative_humidity := (daily_fold forcast).2.2 / (daily_fold forcast).1 }

/-- The daily display pipeline from main.rs lines 59–67:
`chunk_by(date).map(average_daily).take(7)` — note: no skip-while and no
truncation of `now` occurs on this path. -/
def dailyDisplay (samples : List ForecastResultHourly) : List ForeCastItem :=
  ((chunkByDate samples).map (fun p => average_daily p.1 p.2)).take 7

/-- The data rows produced by `print_one_table` (main.rs lines 149–163):
for each forecast item, its label value, its observed temperature, and the
projected relative-humidity cells in `sat_press` order. -/
noncomputable def tableRows (forecast : List ForeCastItem) :
    List (ℕ × ℚ × List ℝ) :=
  forecast.map (fun it =>
    (it.datetime_repr, it.temperature,
      projRow (it.temperature : ℝ) (it.relative_humidity : ℝ)))

/-- A 48-hour, one-sample-per-hour series starting at a midnight and
spanning exactly two calendar dates (hour `i` carries temperature `i` °C
and 50 % humidity). -/
def series48 : List ForecastResultHourly :=
  (List.range 48).map (fun i => ⟨3600 * i, (i : ℚ), 50⟩)

/-- A two-sample strictly chronological hourly series. -/
def twoSamples : List ForecastResultHourly :=
  [⟨3600, 20, 50⟩, ⟨7200, 21, 55⟩]

example : chunkByDate [⟨0, 20, 50⟩, ⟨3600, 21, 55⟩, ⟨90000, 22, 60⟩] =
    [(0, [⟨0, 20, 50⟩, ⟨3600, 21, 55⟩]), (1, [⟨90000, 22, 60⟩])] := by
  decide

example : dailyDisplay [⟨0, 20, 50⟩, ⟨3600, 22, 60⟩] =
    [⟨0, 21, 55⟩] := by
  norm_num [dailyDisplay, chunkByDate, average_daily, daily_fold, daily_step,
    naiveDate, extract_temp_rh]

example : hourlyDisplay [⟨0, 20, 50⟩, ⟨7200, 21, 55⟩] 7300 =
    [⟨7200, 21, 55⟩] := by decide

/-! ## Helper lemmas about the projection -/

lemma p_sat_pos (t : ℝ) : 0 < p_sat t := by
  unfold p_sat
  positivity

lemma celsius_sat_pres_pos (c : ℝ) : 0 < celsius_sat_pres c :=
  p_sat_pos _

lemma celsius_sat_pres_ne_zero (c : ℝ) : celsius_sat_pres c ≠ 0 :=
  ne_of_gt (celsius_sat_pres_pos c)

/-- The modelled saturation pressure is strictly increasing on positive
absolute temperatures. -/
lemma p_sat_strictMono {t1 t2 : ℝ} (h0 : 0 < t1) (h : t1 < t2) :
    p_sat t1 < p_sat t2 := by
  unfold p_sat
  have h2 : (0 : ℝ) < t2 := h0.trans h
  refine mul_lt_mul_of_pos_left (Real.exp_lt_exp.mpr ?_) (by norm_num)
  have h3 : 1 / t2 < 1 / t1 := one_div_lt_one_div_of_lt h0 h
  linarith

/-- The saturation-pressure ratio between 25 °C and 16 °C exceeds 5/4 in
the Clausius–Clapeyron model. -/
lemma exp_ratio_25_16 :
    (5 : ℝ) / 4 <
      Real.exp (5300 * (1 / 373.15 - 1 / 298.15)) /
        Real.exp (5300 * (1 / 373.15 - 1 / 289.15)) := by
  rw [← Real.exp_sub]
  have h1 : (5300 : ℝ) * (1 / 373.15 - 1 / 298.15) -
      5300 * (1 / 373.15 - 1 / 289.15) = 5300 * (1 / 289.15 - 1 / 298.15) := by
    ring
  rw [h1]
  have h2 : (1 : ℝ) / 4 < 5300 * (1 / 289.15 - 1 / 298.15) := by norm_num
  have h3 := Real.add_one_le_exp ((5300 : ℝ) * (1 / 289.15 - 1 / 298.15))
  linarith

/-- The (25 °C, 80 %) sample projected to 16 °C exceeds 100 %. -/
lemma rhProj_25_80_16_gt_100 : 100 < rhProj 25 80 16 := by
  unfold rhProj celsius_sat_pres celsius_to_kelvin p_sat
  have hA : (25 : ℝ) + 273.15 = 298.15 := by norm_num
  have hB : (16 : ℝ) + 273.15 = 289.15 := by norm_num
  rw [hA, hB]
  have e1 : (0 : ℝ) < Real.exp (5300 * (1 / 373.15 - 1 / 298.15)) :=
    Real.exp_pos _
  have e2 : (0 : ℝ) < Real.exp (5300 * (1 / 373.15 - 1 / 289.15)) :=
    Real.exp_pos _
  have hq : 80 * (101325 * Real.exp (5300 * (1 / 373.15 - 1 / 298.15))) /
      (101325 * Real.exp (5300 * (1 / 373.15 - 1 / 289.15))) =
      80 * (Real.exp (5300 * (1 / 373.15 - 1 / 298.15)) /
        Real.exp (5300 * (1 / 373.15 - 1 / 289.15))) := by
    field_simp
    ring
  rw [hq]
  have := exp_ratio_25_16
  linarith

/-- The projection row agrees with the spec's formula, cell by cell. -/
lemma projRow_eq_spec (t rh : ℝ) : projRow t rh = project_spec t rh := by
  unfold projRow project_spec sat_press
  rw [List.map_map]
  refine List.map_congr_left ?_
  intro tr _
  simp only [Function.comp_apply]
  ring

/-! ## Helper lemmas about the data pipeline -/

lemma naiveDate_le_of_datetime_lt {a b : ForecastResultHourly}
    (h : a.datetime < b.datetime) : naiveDate a ≤ naiveDate b :=
  Nat.div_le_div_right h.le

/-- The chunks of `chunkByDate`, concatenated in order, give back the
input list: nothing is dropped, duplicated or reordered. -/
lemma chunkByDate_flatten (l : List ForecastResultHourly) :
    ((chunkByDate l).map Prod.snd).flatten = l := by
  induction l with
  | nil => rfl
  | cons x xs ih =>
    cases e : chunkByDate xs with
    | nil =>
      simp only [chunkByDate, e]
      simpa [e] using ih
    | cons p rest =>
      obtain ⟨d, g⟩ := p
      by_cases hd : naiveDate x = d
      · simp only [chunkByDate, e, if_pos hd]
        rw [e] at ih
        simpa using ih
      · simp only [chunkByDate, e, if_neg hd]
        rw [e] at ih
        simpa using ih

/-- Every chunk produced by `chunkByDate` is non-empty and consists
exclusively of samples whose calendar date is the chunk's key. -/
lemma chunkByDate_chunks (l : List ForecastResultHourly) :
    ∀ p ∈ chunkByDate l, p.2 ≠ [] ∧ ∀ s ∈ p.2, naiveDate s = p.1 := by
  induction l with
  | nil => intro p hp; simp [chunkByDate] at hp
  | cons x xs ih =>
    intro p hp
    cases e : chunkByDate xs with
    | nil =>
      rw [chunkByDate, e] at hp
      simp only [List.mem_singleton] at hp
      subst hp
      refine ⟨by simp, ?_⟩
      intro s hs
      simp only [List.mem_singleton] at hs
      simp [hs]
    | cons q rest =>
      obtain ⟨d, g⟩ := q
      rw [e] at ih
      by_cases hd : naiveDate x = d
      · simp only [chunkByDate, e, if_pos hd] at hp
        rcases List.mem_cons.mp hp with hp | hp
        · subst hp
          have hq := ih (d, g) (by simp)
          refine ⟨by simp, ?_⟩
          intro s hs
          rcases List.mem_cons.mp hs with hs | hs
          · simpa [hs] using hd
          · exact hq.2 s hs
        · exact ih p (by simp [hp])
      · simp only [chunkByDate, e, if_neg hd] at hp
        rcases List.mem_cons.mp hp with hp | hp
        · subst hp
          refine ⟨by simp, ?_⟩
          intro s hs
          simp only [List.mem_singleton] at hs
          simp [hs]
        · exact ih p hp

/-- Every chunk key is the calendar date of some input sample. -/
lemma chunkByDate_key_mem (l : List ForecastResultHourly) :
    ∀ p ∈ chunkByDate l, ∃ s ∈ l, naiveDate s = p.1 := by
  intro p hp
  obtain ⟨hne, hall⟩ := chunkByDate_chunks l p hp
  obtain ⟨s, hs⟩ := List.exists_mem_of_ne_nil p.2 hne
  refine ⟨s, ?_, hall s hs⟩
  rw [← chunkByDate_flatten l]
  exact List.mem_flatten.mpr ⟨p.2, List.mem_map_of_mem Prod.snd hp, hs⟩

/-- On chronologically sorted input the chunk keys are strictly
increasing: one chunk per distinct calendar date, in order of first
appearance. -/
lemma chunkByDate_keys_sorted {l : List ForecastResultHourly}
    (h : chronological l) :
    ((chunkByDate l).map Prod.fst).Pairwise (· < ·) := by
  induction l with
  | nil => simp [chunkByDate]
  | cons x xs ih =>
    have hx : ∀ s ∈ xs, x.datetime < s.datetime :=
      fun s hs => (List.pairwise_cons.mp h).1 s hs
    have hxs : chronological xs := (List.pairwise_cons.mp h).2
    have hkey : ∀ p ∈ chunkByDate xs, naiveDate x ≤ p.1 := by
      intro p hp
      obtain ⟨s, hsl, hsd⟩ := chunkByDate_key_mem xs p hp
      exact hsd ▸ naiveDate_le_of_datetime_lt (hx s hsl)
    cases e : chunkByDate xs with
    | nil => simp [chunkByDate, e]
    | cons q rest =>
      obtain ⟨d, g⟩ := q
      have ihs := ih hxs
      rw [e] at ihs
      by_cases hd : naiveDate x = d
      · simp only [chunkByDate, e, if_pos hd]
        simpa using ihs
      · simp only [chunkByDate, e, if_neg hd]
        have hxd : naiveDate x < d :=
          lt_of_le_of_ne (by simpa using hkey (d, g) (e ▸ List.mem_cons_self _ _)) hd
        simp only [List.map_cons, List.pairwise_cons] at ihs ⊢
        refine ⟨?_, ihs⟩
        intro k hk
        rcases List.mem_cons.mp hk with hk | hk
        · exact hk ▸ hxd
        · exact hxd.trans (ihs.1 k hk)

/-- The accumulation loop of `average_daily`, run from an arbitrary
starting accumulator. -/
lemma daily_fold_loop (g : List ForecastResultHourly) (a b c : ℚ) :
    g.foldl daily_step (a, b, c) =
    (a + g.length, b + (g.map (·.temperature_2m)).sum,
      c + (g.map (·.relative_humidity_2m)).sum) := by
  induction g generalizing a b c with
  | nil => simp
  | cons s ss ih =>
    simp only [List.foldl_cons, daily_step, extract_temp_rh]
    rw [ih]
    simp only [List.length_cons, List.map_cons, List.sum_cons]
    refine Prod.ext ?_ (Prod.ext ?_ ?_) <;> push_cast <;> ring

/-- `daily_fold` computes the group size and the two component sums. -/
lemma daily_fold_eq (g : List ForecastResultHourly) :
    daily_fold g =
      ((g.length : ℚ), (g.map (·.temperature_2m)).sum,
        (g.map (·.relative_humidity_2m)).sum) := by
  simpa using daily_fold_loop g 0 0 0

/-- `average_daily` returns the arithmetic means of the group. -/
lemma average_daily_eq (d : ℕ) (g : List ForecastResultHourly) :
    average_daily d g =
      ⟨d, (g.map (·.temperature_2m)).sum / g.length,
        (g.map (·.relative_humidity_2m)).sum / g.length⟩ := by
  simp [average_daily, daily_fold_eq]

/-- On chronologically sorted input, every sample surviving the hourly
skip-while is at or after the truncated reference instant. -/
lemma mem_dropWhile_ge {l : List ForecastResultHourly} (c : ℕ)
    (h : chronological l) :
    ∀ x ∈ l.dropWhile (fun s => s.datetime < c), c ≤ x.datetime := by
  induction l with
  | nil => simp
  | cons a as ih =>
    have ha : ∀ b ∈ as, a.datetime < b.datetime :=
      fun b hb => (List.pairwise_cons.mp h).1 b hb
    by_cases hc : a.datetime < c
    · simp only [List.dropWhile_cons, decide_eq_true_eq, if_pos hc]
      exact ih (List.pairwise_cons.mp h).2
    · simp only [List.dropWhile_cons, decide_eq_true_eq, if_neg hc]
      intro x hx
      rcases List.mem_cons.mp hx with hx | hx
      · exact hx ▸ Nat.le_of_not_lt hc
      · exact (Nat.le_of_not_lt hc).trans (ha x hx).le

/-! ## Claim theorems -/

/-- C1: For every observed temperature and relative humidity, the
projected row emitted by `print_one_table` equals
`100 * ((RH/100) * saturation_pressure(T_obs)) / saturation_pressure(T_ref)`
at each reference temperature — the code's formula, which omits the
cancelling `/100` and `*100`, agrees with the spec's — with one projected
value per reference temperature, in the order of the reference list. -/
theorem projection_formula_matches_spec (t rh : ℝ) :
    projRow t rh = project_spec t rh ∧
    (projRow t rh).length = TEMP_RANGE.length :=
  ⟨projRow_eq_spec t rh, by simp [projRow, sat_press]⟩

/-- C2: On a chronologically sorted sample sequence the hourly display
path returns at most 10 samples, all at or after `now` truncated to the
hour, with strictly increasing timestamps, and it is exactly skip-while
(strictly-earlier samples dropped) followed by take-10. -/
theorem hourly_window_bounds (samples : List ForecastResultHourly)
    (now : ℕ) (h : chronological samples) :
    (hourlyDisplay samples now).length ≤ 10 ∧
    (∀ it ∈ hourlyDisplay samples now, truncHour now ≤ it.datetime_repr) ∧
    (hourlyDisplay samples now).Pairwise
      (fun a b => a.datetime_repr < b.datetime_repr) ∧
    hourlyDisplay samples now =
      ((samples.dropWhile (fun s => s.datetime < truncHour now)).take 10).map
        ForeCastItem.from_api := by
  refine ⟨?_, ?_, ?_, ?_⟩
  · simp only [hourlyDisplay, List.length_take]
    exact Nat.min_le_left _ _
  · intro it hit
    simp only [hourlyDisplay] at hit
    have hit2 := List.take_subset _ _ hit
    obtain ⟨s, hs, rfl⟩ := List.mem_map.mp hit2
    exact mem_dropWhile_ge _ h s hs
  · have h1 : (samples.dropWhile
        (fun s => s.datetime < truncHour now)).Pairwise
        (fun a b => a.datetime < b.datetime) :=
      h.sublist (List.dropWhile_sublist _)
    have h2 : ((samples.dropWhile
        (fun s => s.datetime < truncHour now)).map
          ForeCastItem.from_api).Pairwise
        (fun a b => a.datetime_repr < b.datetime_repr) :=
      List.pairwise_map.mpr h1
    exact h2.sublist (List.take_sublist _ _)
  · exact (List.map_take _ _ _).symm

/-- Witness for C2 at a concrete two-sample series. -/
theorem hourly_window_bounds_witness :
    chronological twoSamples ∧
    ((hourlyDisplay twoSamples 3700).length ≤ 10 ∧
      (∀ it ∈ hourlyDisplay twoSamples 3700,
        truncHour 3700 ≤ it.datetime_repr) ∧
      (hourlyDisplay twoSamples 3700).Pairwise
        (fun a b => a.datetime_repr < b.datetime_repr) ∧
      hourlyDisplay twoSamples 3700 =
        ((twoSamples.dropWhile
          (fun s => s.datetime < truncHour 3700)).take 10).map
            ForeCastItem.from_api) :=
  ⟨by decide, hourly_window_bounds twoSamples 3700 (by decide)⟩

/-- C3: On chronologically sorted input the daily aggregation yields one
chunk per distinct calendar date in order of first appearance (keys
strictly increasing), the chunks partition the input in order, every
chunk holds exactly samples of its date, and `average_daily` returns the
arithmetic means of each chunk. -/
theorem daily_aggregation_correct (l : List ForecastResultHourly)
    (h : chronological l) :
    ((chunkByDate l).map Prod.snd).flatten = l ∧
    (∀ p ∈ chunkByDate l, p.2 ≠ [] ∧ ∀ s ∈ p.2, naiveDate s = p.1) ∧
    ((chunkByDate l).map Prod.fst).Pairwise (· < ·) ∧
    ∀ p ∈ chunkByDate l, average_daily p.1 p.2 =
      ⟨p.1, (p.2.map (·.temperature_2m)).sum / p.2.length,
        (p.2.map (·.relative_humidity_2m)).sum / p.2.length⟩ :=
  ⟨chunkByDate_flatten l, chunkByDate_chunks l, chunkByDate_keys_sorted h,
    fun p _ => average_daily_eq p.1 p.2⟩

/-- Witness for C3: a 48-hour one-per-hour series spanning exactly two
calendar dates yields exactly 2 entries whose means are the arithmetic
means of each day's 24 values (day 0: mean 23/2 °C, day 1: 71/2 °C). -/
theorem daily_aggregation_correct_witness :
    chronological series48 ∧
    (((chunkByDate series48).map Prod.snd).flatten = series48 ∧
      (∀ p ∈ chunkByDate series48, p.2 ≠ [] ∧
        ∀ s ∈ p.2, naiveDate s = p.1) ∧
      ((chunkByDate series48).map Prod.fst).Pairwise (· < ·) ∧
      ∀ p ∈ chunkByDate series48, average_daily p.1 p.2 =
        ⟨p.1, (p.2.map (·.temperature_2m)).sum / p.2.length,
          (p.2.map (·.relative_humidity_2m)).sum / p.2.length⟩) ∧
    (chunkByDate series48).length = 2 ∧
    dailyDisplay series48 = [⟨0, 23 / 2, 50⟩, ⟨1, 71 / 2, 50⟩] := by
  refine ⟨by decide, daily_aggregation_correct series48 (by decide), ?_, ?_⟩
  · decide
  · norm_num [dailyDisplay, chunkByDate, average_daily, daily_fold,
      daily_step, naiveDate, extract_temp_rh, series48, List.range_succ]

/-- C4 counterexample: the daily display path applies no windower — with
the single input sample on calendar day 0 and a current instant on
calendar day 2 (180000 s; day 2 starts at 172800 s), the displayed daily
entry's calendar date is strictly before the current instant's day. -/
theorem daily_display_shows_past_day :
    ∃ e ∈ dailyDisplay [⟨0, 20, 50⟩], e.datetime_repr < 180000 / 86400 := by
  refine ⟨⟨0, 20, 50⟩, ?_, by norm_num⟩
  norm_num [dailyDisplay, chunkByDate, average_daily, daily_fold,
    daily_step, naiveDate, extract_temp_rh]

/-- C4 amended: the daily display path does not pass the aggregates
through the windower; it takes the first 7 daily aggregates in input
order with no truncation or skip of past days, so displayed dates are
present-or-future only when every input sample's date already is. -/
theorem daily_display_take_only (l : List ForecastResultHourly) (D : ℕ)
    (h : ∀ s ∈ l, D ≤ naiveDate s) :
    dailyDisplay l =
      ((chunkByDate l).map (fun p => average_daily p.1 p.2)).take 7 ∧
    (dailyDisplay l).length ≤ 7 ∧
    ∀ e ∈ dailyDisplay l, D ≤ e.datetime_repr := by
  refine ⟨rfl, ?_, ?_⟩
  · simp only [dailyDisplay, List.length_take]
    exact Nat.min_le_left _ _
  · intro e he
    simp only [dailyDisplay] at he
    have he2 := List.take_subset _ _ he
    obtain ⟨q, hq, rfl⟩ := List.mem_map.mp he2
    obtain ⟨s, hsl, hsd⟩ := chunkByDate_key_mem l q hq
    show D ≤ q.1
    exact hsd ▸ h s hsl

/-- Witness for the amended C4 at a one-sample day-1 input with the
current day `D = 1`. -/
theorem daily_display_take_only_witness :
    (∀ s ∈ [(⟨90000, 20, 50⟩ : ForecastResultHourly)], 1 ≤ naiveDate s) ∧
    (dailyDisplay [⟨90000, 20, 50⟩] =
      ((chunkByDate [⟨90000, 20, 50⟩]).map
        (fun p => average_daily p.1 p.2)).take 7 ∧
    (dailyDisplay [⟨90000, 20, 50⟩]).length ≤ 7 ∧
    ∀ e ∈ dailyDisplay [⟨90000, 20, 50⟩], 1 ≤ e.datetime_repr) :=
  ⟨by decide, daily_display_take_only [⟨90000, 20, 50⟩] 1 (by decide)⟩

/-- C5: the observed sample (25 °C, 80 %) projected to the reference
temperature 16 °C exceeds 100 %, and this value reaches the emitted table
cell unmodified (16 °C is the first reference column). -/
theorem supersaturation_unclamped :
    100 < rhProj 25 80 16 ∧
    (tableRows [⟨0, 25, 80⟩]).map (fun r => r.2.2.head?) =
      [some (rhProj 25 80 16)] := by
  refine ⟨rhProj_25_80_16_gt_100, ?_⟩
  simp only [tableRows, List.map_cons, List.map_nil, projRow, sat_press,
    TEMP_RANGE, rhProj, List.head?]
  norm_num

/-- C6: projecting a sample onto its own observed temperature is the
identity; in particular (22 °C, 50 %) projected to 22 °C is exactly 50. -/
theorem projection_identity :
    (∀ t rh : ℝ, rhProj t rh t = rh) ∧ rhProj 22 50 22 = 50 := by
  have key : ∀ t rh : ℝ, rhProj t rh t = rh := by
    intro t rh
    unfold rhProj
    rw [mul_div_assoc, div_self (celsius_sat_pres_ne_zero t), mul_one]
  exact ⟨key, key 22 50⟩

/-- C7: the projection is homogeneous in the observed relative humidity —
doubling a (still physical) humidity doubles every projected value. -/
theorem projection_homogeneous (t rh : ℝ) (h : 2 * rh ≤ 100) :
    projRow t (2 * rh) = (projRow t rh).map (fun v => 2 * v) := by
  unfold projRow
  rw [List.map_map]
  refine List.map_congr_left ?_
  intro sp _
  simp only [Function.comp_apply]
  ring

/-- Witness for C7 at 20 °C, 30 % humidity. -/
theorem projection_homogeneous_witness :
    2 * (30 : ℝ) ≤ 100 ∧
    projRow 20 (2 * 30) = (projRow 20 30).map (fun v => 2 * v) :=
  ⟨by norm_num, projection_homogeneous 20 30 (by norm_num)⟩

/-- C8: the saturation-pressure function applied to `celsius + 273.15` is
strictly increasing on [−20, 45] °C and yields a (finite) positive real on
[−50, 60] °C. -/
theorem saturation_pressure_monotone_defined (a b c : ℝ)
    (ha : -20 ≤ a) (hab : a < b) (hb : b ≤ 45)
    (hc1 : -50 ≤ c) (hc2 : c ≤ 60) :
    celsius_sat_pres a < celsius_sat_pres b ∧ 0 < celsius_sat_pres c := by
  constructor
  · unfold celsius_sat_pres
    refine p_sat_strictMono ?_ ?_
    · unfold celsius_to_kelvin
      linarith
    · unfold celsius_to_kelvin
      linarith
  · exact celsius_sat_pres_pos c

/-- Witness for C8 at a = 0 °C, b = 20 °C, c = 10 °C. -/
theorem saturation_pressure_monotone_defined_witness :
    (-20 : ℝ) ≤ 0 ∧ (0 : ℝ) < 20 ∧ (20 : ℝ) ≤ 45 ∧
    (-50 : ℝ) ≤ 10 ∧ (10 : ℝ) ≤ 60 ∧
    (celsius_sat_pres 0 < celsius_sat_pres 20 ∧ 0 < celsius_sat_pres 10) :=
  ⟨by norm_num, by norm_num, by norm_num, by norm_num, by norm_num,
    saturation_pressure_monotone_defined 0 20 10 (by norm_num) (by norm_num)
      (by norm_num) (by norm_num) (by norm_num)⟩

/-- C9: empty input produces zero data rows on both display paths, and
windowing with count 0 returns the empty sequence regardless of the
input; the hourly path is the count-10 instance of the windower. -/
theorem empty_input_and_count_zero :
    (∀ now, hourlyDisplay [] now = []) ∧
    dailyDisplay [] = [] ∧
    (∀ now, tableRows (hourlyDisplay [] now) = []) ∧
    tableRows (dailyDisplay []) = [] ∧
    (∀ samples now, windowCount samples now 0 = []) ∧
    (∀ samples now, hourlyDisplay samples now =
      (windowCount samples now 10).map ForeCastItem.from_api) :=
  ⟨fun _ => rfl, rfl, fun _ => rfl, rfl, fun _ _ => rfl,
    fun _ _ => (List.map_take _ _ _).symm⟩

/-- C10: every group the chunk-by-date step passes to `average_daily` is
non-empty, the loop's running count equals the group size (hence is at
least 1 and non-zero), so the final mean divisions never divide by
zero. -/
theorem daily_groups_nonempty_count_nonzero (l : List ForecastResultHourly)
    (p : ℕ × List ForecastResultHourly) (hp : p ∈ chunkByDate l) :
    p.2 ≠ [] ∧ 1 ≤ p.2.length ∧
    (daily_fold p.2).1 = (p.2.length : ℚ) ∧ (daily_fold p.2).1 ≠ 0 := by
  obtain ⟨hne, -⟩ := chunkByDate_chunks l p hp
  have hlen : 0 < p.2.length := List.length_pos.mpr hne
  refine ⟨hne, hlen, ?_, ?_⟩
  · rw [daily_fold_eq]
  · rw [daily_fold_eq]
    exact Nat.cast_ne_zero.mpr (by omega)

/-- Witness for C10 at the one-chunk input `[⟨0, 20, 50⟩]`. -/
theorem daily_groups_nonempty_count_nonzero_witness :
    ((0, [⟨0, 20, 50⟩]) : ℕ × List ForecastResultHourly) ∈
      chunkByDate [⟨0, 20, 50⟩] ∧
    ([(⟨0, 20, 50⟩ : ForecastResultHourly)] ≠ [] ∧
      1 ≤ [(⟨0, 20, 50⟩ : ForecastResultHourly)].length ∧
      (daily_fold [⟨0, 20, 50⟩]).1 =
        (([(⟨0, 20, 50⟩ : ForecastResultHourly)].length : ℕ) : ℚ) ∧
      (daily_fold [⟨0, 20, 50⟩]).1 ≠ 0) :=
  ⟨by decide,
    daily_groups_nonempty_count_nonzero [⟨0, 20, 50⟩] (0, [⟨0, 20, 50⟩])
      (by decide)⟩
